import Mathlib

/-!
Shallow embedding of `src/github.ts` of the magic-mirror repository:
the pending-PR merge engine (mergePR), the failure reporter
(createFailureIssue), the check-gate lookups (getRequiredChecks,
getOwners) and the supplementary PR update (updatePR).

External collaborators (the Octokit host client, the Database store, the
base64 decoder and the YAML loader) are modelled as records of functions
passed in, mirroring how the TypeScript code receives an authenticated
client handle and a Database instance.  Host calls that the code awaits
are recorded as events so that call counts ("no second merge attempt",
"zero update calls") are provable.
-/

namespace MagicMirror

/-- Repository reference `{organization, name}` (from `PendingPR.repo` usage
in `github.ts`; the shape is given by the spec's Repository Reference). -/
structure Repo where
  organization : String
  name : String
deriving DecidableEq, Repr

/-- Modelled from the spec: the `PRAction` enumeration imported from the
missing `src/db.ts` — `{Pending, Merged, Blocked}`. -/
inductive PRAction where
  | Pending
  | Merged
  | Blocked
deriving DecidableEq, Repr

/-- Modelled from the spec: the `PendingPR` record imported from the missing
`src/db.ts`, with the fields `github.ts` and the spec's data model use:
fork repo, upstream repo, branch, upstream PR IDs, upstream authors,
optional fork PR number, optional tracking-issue number, and action. -/
structure PendingPR where
  repo : Repo
  upstreamRepo : Repo
  branch : String
  upstreamPRIDs : List Nat
  upstreamAuthors : List String
  prID : Option Nat
  githubIssue : Option Nat
  action : PRAction
deriving DecidableEq, Repr

/-- JavaScript string interpolation of a possibly-undefined number
(`${pendingPR.prID}` when `prID` may be `undefined`). -/
def optNatToString : Option Nat → String
  | some n => toString n
  | none => "undefined"

/-- JavaScript truthiness of an optional number: `undefined` and `0` are
falsy (`if (prID)`). -/
def truthyNat : Option Nat → Bool
  | some n => n != 0
  | none => false

/-- JavaScript truthiness of an optional string: `undefined` and `""` are
falsy (`if (err)` where the error interpolates to a string). -/
def truthyStr : Option String → Bool
  | some s => s != ""
  | none => false

/-- Parameters of `client.issues.create` as invoked by
`createFailureIssue`. -/
structure IssueParams where
  owner : String
  repo : String
  title : String
  body : String
  assignees : Option (List String)
deriving DecidableEq, Repr

/-- Parameters of `client.pulls.merge` as invoked by `mergePR`
(`pull_number` is `pendingPR.prID as number`, which at runtime is the
possibly-undefined `prID`). -/
structure MergeParams where
  owner : String
  repo : String
  pull_number : Option Nat
  merge_method : String
  sha : String
deriving DecidableEq, Repr

/-- The failure-issue title built by `createFailureIssue`:
`😿 Failed to sync the upstream PRs: #${upstreamPRIDs.join(", #")}`. -/
def failureTitle (upstreamPRIDs : List Nat) : String :=
  "😿 Failed to sync the upstream PRs: #" ++
    String.intercalate ", #" (upstreamPRIDs.map toString)

/-- The opening of the failure-issue body (the `let body = ...`
initializer of the source): the reason and the bulleted upstream PR
list. -/
def failureIntro (repo upstreamOrg : String) (upstreamPRIDs : List Nat)
    (reason : String) : String :=
  let prLineHead := "\n* " ++ upstreamOrg ++ "/" ++ repo ++ "#"
  "🪞 Magic Mirror 🪞 failed to sync the following upstream pull-requests because " ++
    reason ++ ":" ++ prLineHead ++
    String.intercalate prLineHead (upstreamPRIDs.map toString) ++ "\n\n"

/-- The `body +=` chunk referencing the sync PR (appended only when
`prID` is truthy). -/
def prChunk (prID : Option Nat) : String :=
  "The pull-request (#" ++ optNatToString prID ++
    ") can be reviewed for more information.\n\n"

/-- The `body +=` chunk stating that syncing is paused for the branch
until the issue is closed. -/
def pausedChunk (org repo branch : String) : String :=
  "Syncing is paused for the branch " ++ branch ++ " on " ++ org ++ "/" ++ repo ++
    " until the issue is manually resolved and this issue is closed.\n"

/-- The `body +=` chunk carrying the raw syncing error inside a fenced
code block (appended only when `err` is truthy). -/
def errChunk (e : String) : String :=
  "\nSyncing error:\n```\n" ++ e ++ "\n```\n"

/-- The `body +=` chunk carrying the recreate commands inside a fenced
code block (appended only when `patchCmd` is set). -/
def patchChunk (cmds : List String) : String :=
  "\nCommands to recreate the issue:\n" ++ "\n```\n" ++
    String.intercalate "\n" cmds ++ "\n```\n"

/-- The trailing `body +=` chunk of the source. -/
def yodaChunk : String :=
  "\n![sad Yoda](https://media.giphy.com/media/3o7qDK5J5Uerg3atJ6/giphy.gif)"

/-- The failure-issue body built by `createFailureIssue`, following the
successive `body +=` statements of the source. -/
def failureBody (org repo upstreamOrg branch : String)
    (upstreamPRIDs : List Nat) (reason : String) (prID : Option Nat)
    (err : Option String) (patchCmd : Option (List String)) : String :=
  let body := failureIntro repo upstreamOrg upstreamPRIDs reason
  let body := if truthyNat prID then body ++ prChunk prID else body
  let body := body ++ pausedChunk org repo branch
  let body := if truthyStr err then body ++ errChunk (err.getD "") else body
  let body := match patchCmd with
    | some cmds => body ++ patchChunk cmds
    | none => body
  body ++ yodaChunk

/-- Parameters of `client.pulls.get` as invoked by `updatePR`. -/
structure PullGetParams where
  owner : String
  repo : String
  pull_number : Nat
deriving DecidableEq, Repr

/-- Parameters of `client.pulls.update` as invoked by `updatePR`. -/
structure PullUpdateParams where
  owner : String
  repo : String
  pull_number : Nat
  body : String
  assignees : List String
deriving DecidableEq, Repr

/-- Parameters of `client.repos.getBranch` as invoked by
`getRequiredChecks`. -/
structure BranchParams where
  owner : String
  repo : String
  branch : String
deriving DecidableEq, Repr

/-- Parameters of `client.repos.getContent` as invoked by `getOwners`. -/
structure ContentParams where
  owner : String
  repo : String
  path : String
  ref : String
deriving DecidableEq, Repr

/-- An assignee object of the pull-request payload (`assignee.login`). -/
structure Assignee where
  login : String
deriving DecidableEq, Repr

/-- The slice of the `client.pulls.get` response data that `updatePR`
reads: `body` (string or null) and `assignees` (array or null). -/
structure PullData where
  body : Option String
  assignees : Option (List Assignee)
deriving DecidableEq, Repr

/-- The branch-protection `required_status_checks` payload read by
`getRequiredChecks`. -/
structure RequiredStatusChecks where
  contexts : List String
deriving DecidableEq, Repr

/-- The branch-protection payload read by `getRequiredChecks`; a missing
`required_status_checks` policy (falsy in the source) is `none`. -/
structure Protection where
  enabled : Bool
  required_status_checks : Option RequiredStatusChecks
deriving DecidableEq, Repr

/-- The slice of the `client.repos.getBranch` response data that
`getRequiredChecks` reads. -/
structure BranchData where
  protection : Protection
deriving DecidableEq, Repr

/-- A JavaScript value as observed by `getOwners` (the `getContent`
payload and the result of `yaml.load`). -/
inductive JsValue where
  | undefined
  | jsNull
  | bool (b : Bool)
  | num (n : Int)
  | str (s : String)
  | arr (xs : List JsValue)
  | obj (fields : List (String × JsValue))

/-- `Array.isArray(v)`. -/
def JsValue.isArray : JsValue → Bool
  | .arr _ => true
  | _ => false

/-- `typeof v == "object"` (true for objects, arrays and `null`). -/
def JsValue.typeofIsObject : JsValue → Bool
  | .jsNull => true
  | .arr _ => true
  | .obj _ => true
  | _ => false

/-- JavaScript truthiness of a value. -/
def JsValue.truthy : JsValue → Bool
  | .undefined => false
  | .jsNull => false
  | .bool b => b
  | .num n => n != 0
  | .str s => s != ""
  | .arr _ => true
  | .obj _ => true

/-- Property access `v[k]`: `some` when `k in v` holds on an object,
`none` otherwise (the `undefined` read). -/
def JsValue.getField : JsValue → String → Option JsValue
  | .obj fields, k => (fields.find? (fun f => f.1 == k)).map (fun f => f.2)
  | _, _ => none

/-- Outcome of a `client.repos.getContent` call.  The GitHub host answers
a request for a path that does not exist with an HTTP 404, which the
client surfaces as a thrown `HttpError: Not Found`; other retrieval
failures (network, auth) are thrown with their own message. -/
inductive ContentOutcome where
  | ok (v : JsValue)
  | notFound
  | err (msg : String)

/-- The Octokit host client as used by `github.ts`: each method either
returns its response data or throws (`Except.error`). -/
structure Client where
  pullsMerge : MergeParams → Except String Unit
  issuesCreate : IssueParams → Except String Nat
  pullsGet : PullGetParams → Except String PullData
  pullsUpdate : PullUpdateParams → Except String Unit
  reposGetBranch : BranchParams → Except String BranchData
  reposGetContent : ContentParams → ContentOutcome

/-- Modelled from the spec: the `Database` store imported from the missing
`src/db.ts`; the only operation `github.ts` uses is `setPendingPR`
(the Store's `put`), which persists a record or throws. -/
structure Database where
  setPendingPR : PendingPR → Except String Unit

/-- The external JavaScript libraries `getOwners` calls:
`Buffer.from(_, "base64").toString("utf-8")` and `yaml.load` (which can
throw, hence `Except`). -/
structure JsLibs where
  base64DecodeUtf8 : String → String
  yamlLoad : String → Except String JsValue

/-- A host/store call awaited by the embedded functions; traces of these
events make call counts provable. -/
inductive Event where
  | pullsMerge (p : MergeParams)
  | issuesCreate (p : IssueParams)
  | pullsGet (p : PullGetParams)
  | pullsUpdate (p : PullUpdateParams)
  | setPendingPR (r : PendingPR)
deriving DecidableEq, Repr

/-- `true` exactly on merge-call events. -/
def Event.isMergeCall : Event → Bool
  | .pullsMerge _ => true
  | _ => false

/-- `true` exactly on pull-request-update events. -/
def Event.isUpdateCall : Event → Bool
  | .pullsUpdate _ => true
  | _ => false

/-- Number of merge attempts in a trace. -/
def countMergeCalls (evs : List Event) : Nat := (evs.filter Event.isMergeCall).length

/-- Number of PR-update calls in a trace. -/
def countUpdateCalls (evs : List Event) : Nat := (evs.filter Event.isUpdateCall).length

/-- The `issues.create` parameters `createFailureIssue` builds from its
arguments. -/
def issueParamsOf (org repo upstreamOrg branch : String) (upstreamPRIDs : List Nat)
    (reason : String) (prID : Option Nat) (assignees : Option (List String))
    (patchCmd : Option (List String)) (err : Option String) : IssueParams :=
  { owner := org, repo := repo, title := failureTitle upstreamPRIDs,
    body := failureBody org repo upstreamOrg branch upstreamPRIDs reason prID err patchCmd,
    assignees := assignees }

/-- `createFailureIssue` of `github.ts`: composes the failure title and
body, creates the issue, and resolves to the created issue's number
(or propagates the creation failure). -/
def createFailureIssue (client : Client) (org repo upstreamOrg branch : String)
    (upstreamPRIDs : List Nat) (reason : String) (prID : Option Nat)
    (assignees : Option (List String)) (patchCmd : Option (List String))
    (err : Option String) : Except String Nat × List Event :=
  let p := issueParamsOf org repo upstreamOrg branch upstreamPRIDs reason prID
    assignees patchCmd err
  (client.issuesCreate p, [Event.issuesCreate p])

/-- The `pulls.merge` parameters `mergePR` builds: rebase merge of
`pendingPR.prID`, constrained to `sha := head`. -/
def mergeParamsOf (pendingPR : PendingPR) (head : String) : MergeParams :=
  { owner := pendingPR.repo.organization, repo := pendingPR.repo.name,
    pull_number := pendingPR.prID, merge_method := "rebase", sha := head }

/-- The `issues.create` parameters of the failure issue `mergePR` files
when the merge call throws `err`. -/
def mergeFailureIssueParams (pendingPR : PendingPR) (err : String) : IssueParams :=
  issueParamsOf pendingPR.repo.organization pendingPR.repo.name
    pendingPR.upstreamRepo.organization pendingPR.branch pendingPR.upstreamPRIDs
    ("the pull-request (#" ++ optNatToString pendingPR.prID ++ ") couldn't be merged: " ++ err)
    pendingPR.prID (some pendingPR.upstreamAuthors) none none

/-- The blocked record `mergePR` persists after filing failure issue
`issueID`. -/
def blockedRecord (pendingPR : PendingPR) (issueID : Nat) : PendingPR :=
  { pendingPR with githubIssue := some issueID, action := PRAction.Blocked }

/-- `mergePR` of `github.ts`: attempts the rebase merge pinned to `head`;
on success resolves `true`; on merge failure creates a failure issue,
stamps the record with the issue number and `Blocked`, persists it, and
resolves `false`; a failure of issue creation or of the store write
propagates. -/
def mergePR (client : Client) (db : Database) (pendingPR : PendingPR) (head : String) :
    Except String (Bool × PendingPR) × List Event :=
  let p := mergeParamsOf pendingPR head
  match client.pullsMerge p with
  | .ok _ => (.ok (true, pendingPR), [Event.pullsMerge p])
  | .error err =>
    let ip := mergeFailureIssueParams pendingPR err
    match client.issuesCreate ip with
    | .error e => (.error e, [Event.pullsMerge p, Event.issuesCreate ip])
    | .ok issueID =>
      let updated := blockedRecord pendingPR issueID
      match db.setPendingPR updated with
      | .ok _ =>
          (.ok (false, updated),
            [Event.pullsMerge p, Event.issuesCreate ip, Event.setPendingPR updated])
      | .error e =>
          (.error e,
            [Event.pullsMerge p, Event.issuesCreate ip, Event.setPendingPR updated])

/-- The `pulls.get` parameters `updatePR` builds. -/
def pullGetParamsOf (org repo : String) (id : Nat) : PullGetParams :=
  { owner := org, repo := repo, pull_number := id }

/-- The assignee list `updatePR` sends: the previous assignees' logins
when the PR already has a non-empty assignee list, otherwise the
caller-supplied default assignees. -/
def newAssignees (dataAssignees : Option (List Assignee)) (assignees : List String) :
    List String :=
  match dataAssignees with
  | some l => if l.length > 0 then l.map Assignee.login else assignees
  | none => assignees

/-- The `pulls.update` parameters `updatePR` builds once a body was
found. -/
def updateParamsOf (org repo : String) (id : Nat) (body : String)
    (assignees : List String) : PullUpdateParams :=
  { owner := org, repo := repo, pull_number := id, body := body,
    assignees := assignees }

/-- `updatePR` of `github.ts`: reads the PR; returns (as a value, not a
throw) any read error; returns with no update call when the body is
null; otherwise appends the message to the body, keeps the PR's own
assignees when it already has some, and issues exactly one update,
returning its error as a value if it throws. -/
def updatePR (client : Client) (org repo : String) (id : Nat)
    (assignees : List String) (message : String) : Option String × List Event :=
  let gp := pullGetParamsOf org repo id
  match client.pullsGet gp with
  | .error err => (some err, [Event.pullsGet gp])
  | .ok data =>
    match data.body with
    | none => (none, [Event.pullsGet gp])
    | some body =>
      let up := updateParamsOf org repo id (body ++ "\n\n" ++ message)
        (newAssignees data.assignees assignees)
      match client.pullsUpdate up with
      | .ok _ => (none, [Event.pullsGet gp, Event.pullsUpdate up])
      | .error err => (some err, [Event.pullsGet gp, Event.pullsUpdate up])

/-- `new Set(l)` for a list of strings: JavaScript `Set` keeps the first
occurrence of each element, in insertion order. -/
def jsNewSet (l : List String) : List String :=
  l.foldl (fun acc x => if x ∈ acc then acc else acc ++ [x]) []

/-- The `repos.getBranch` parameters `getRequiredChecks` builds. -/
def branchParamsOf (organization repoName branchName : String) : BranchParams :=
  { owner := organization, repo := repoName, branch := branchName }

/-- `getRequiredChecks` of `github.ts`: reads the branch; when protection
is disabled or there is no required-status-checks policy, answers the
empty set; otherwise the contexts as a `Set`. -/
def getRequiredChecks (client : Client) (organization repoName branchName : String) :
    Except String (List String) :=
  match client.reposGetBranch (branchParamsOf organization repoName branchName) with
  | .error e => .error e
  | .ok branch =>
    match branch.protection.required_status_checks with
    | none => .ok []
    | some rsc =>
      if branch.protection.enabled then .ok (jsNewSet rsc.contexts)
      else .ok []

/-- The message a thrown `ContentOutcome` interpolates to in the
`getOwners` catch block. -/
def ContentOutcome.errText : ContentOutcome → String
  | .notFound => "HttpError: Not Found"
  | .err msg => msg
  | .ok _ => ""

/-- The `repos.getContent` parameters `getOwners` builds. -/
def contentParamsOf (organization repoName branchName : String) : ContentParams :=
  { owner := organization, repo := repoName, path := "OWNERS", ref := branchName }

/-- `getOwners` of `github.ts`: fetches the `OWNERS` file content; any
throw of the retrieval or of the YAML load is rejected as a retrieval
error; a payload that passes the content-shape checks and decodes to a
truthy object with an `approvers` array yields that array; every other
successful retrieval yields `[]`. -/
def getOwners (client : Client) (libs : JsLibs)
    (organization repoName branchName : String) : Except String (List JsValue) :=
  match client.reposGetContent (contentParamsOf organization repoName branchName) with
  | .notFound =>
      .error ("failed to retrieve OWNERS file: " ++ ContentOutcome.notFound.errText)
  | .err e => .error ("failed to retrieve OWNERS file: " ++ e)
  | .ok ownersFileObject =>
    match ownersFileObject.getField "content" with
    | some (JsValue.str content) =>
      if ownersFileObject.isArray then .ok []
      else
        let rawYaml := libs.base64DecodeUtf8 content
        match libs.yamlLoad rawYaml with
        | .error e => .error ("failed to retrieve OWNERS file: " ++ e)
        | .ok ownersObj =>
          if ownersObj.typeofIsObject && ownersObj.truthy then
            match ownersObj.getField "approvers" with
            | some (JsValue.arr approvers) => .ok approvers
            | _ => .ok []
          else .ok []
    | _ => .ok []

end MagicMirror

namespace MagicMirror

/-- `s` contains `p` as a substring. -/
def strHasSub (s p : String) : Prop := ∃ a b : String, s = a ++ p ++ b

theorem string_append_assoc (a b c : String) : a ++ b ++ c = a ++ (b ++ c) := by
  apply String.ext
  simp [String.data_append, List.append_assoc]

theorem string_append_empty (a : String) : a ++ "" = a := by
  apply String.ext
  simp [String.data_append]

theorem string_empty_append (a : String) : "" ++ a = a := by
  apply String.ext
  simp [String.data_append]

theorem strHasSub_refl (p : String) : strHasSub p p :=
  ⟨"", "", by rw [string_empty_append, string_append_empty]⟩

theorem strHasSub_append_left (t : String) {s p : String} (h : strHasSub s p) :
    strHasSub (t ++ s) p := by
  obtain ⟨a, b, rfl⟩ := h
  exact ⟨t ++ a, b, by rw [string_append_assoc t, string_append_assoc t]⟩

theorem strHasSub_append_right (t : String) {s p : String} (h : strHasSub s p) :
    strHasSub (s ++ t) p := by
  obtain ⟨a, b, rfl⟩ := h
  exact ⟨a, b ++ t, by rw [string_append_assoc (a ++ p)]⟩

/-- `p` matched against the front of `s`. -/
def subHere : List Char → List Char → Bool
  | [], _ => true
  | _ :: _, [] => false
  | c :: p, d :: s => c == d && subHere p s

/-- `p` searched at every position of the haystack. -/
def subScan (p : List Char) : List Char → Bool
  | [] => p.isEmpty
  | c :: rest => subHere p (c :: rest) || subScan p rest

/-- Executable substring test. -/
def strHasSubB (s p : String) : Bool := subScan p.data s.data

theorem subHere_self_append (p b : List Char) : subHere p (p ++ b) = true := by
  induction p with
  | nil => simp [subHere]
  | cons c p ih => simp [subHere, ih]

theorem subScan_append_left (p : List Char) (a : List Char) {s : List Char}
    (h : subScan p s = true) : subScan p (a ++ s) = true := by
  induction a with
  | nil => simpa
  | cons c a ih => simp [subScan, ih]

theorem subScan_of_append (p a b : List Char) : subScan p (a ++ (p ++ b)) = true := by
  apply subScan_append_left
  cases p with
  | nil => cases b <;> simp [subScan, subHere, List.isEmpty]
  | cons c p =>
    have h : subHere (c :: p) ((c :: p) ++ b) = true := subHere_self_append _ _
    simp only [List.cons_append] at h
    simp [subScan, h]

theorem strHasSubB_of_strHasSub {s p : String} (h : strHasSub s p) :
    strHasSubB s p = true := by
  obtain ⟨a, b, rfl⟩ := h
  show subScan p.data (a ++ p ++ b).data = true
  rw [String.data_append, String.data_append, List.append_assoc]
  exact subScan_of_append _ _ _

/-- A failed scan refutes containment. -/
theorem not_strHasSub {s p : String} (h : strHasSubB s p = false) : ¬ strHasSub s p := by
  intro hs
  rw [strHasSubB_of_strHasSub hs] at h
  cases h

theorem jsNewSet_aux_nodup (l acc : List String) (h : acc.Nodup) :
    (l.foldl (fun acc x => if x ∈ acc then acc else acc ++ [x]) acc).Nodup := by
  induction l generalizing acc with
  | nil => simpa
  | cons c l ih =>
    simp only [List.foldl_cons]
    by_cases hc : c ∈ acc
    · simp only [hc, if_true]
      exact ih acc h
    · simp only [hc, if_false]
      exact ih _ (by simp [List.nodup_append, h, hc])

theorem jsNewSet_aux_mem (l acc : List String) (x : String) :
    x ∈ l.foldl (fun acc x => if x ∈ acc then acc else acc ++ [x]) acc ↔
      x ∈ acc ∨ x ∈ l := by
  induction l generalizing acc with
  | nil => simp
  | cons c l ih =>
    simp only [List.foldl_cons]
    by_cases hc : c ∈ acc
    · rw [if_pos hc, ih]
      constructor
      · rintro (h | h)
        · exact Or.inl h
        · exact Or.inr (List.mem_cons_of_mem _ h)
      · rintro (h | h)
        · exact Or.inl h
        · rcases List.mem_cons.mp h with rfl | h
          · exact Or.inl hc
          · exact Or.inr h
    · rw [if_neg hc, ih]
      simp only [List.mem_append, List.mem_singleton, List.mem_cons]
      tauto

theorem jsNewSet_nodup (l : List String) : (jsNewSet l).Nodup :=
  jsNewSet_aux_nodup l [] List.nodup_nil

theorem jsNewSet_mem (l : List String) (x : String) : x ∈ jsNewSet l ↔ x ∈ l := by
  rw [jsNewSet, jsNewSet_aux_mem]
  simp

/-- A store whose write always succeeds (concrete fixture). -/
def wDB : Database := ⟨fun _ => Except.ok ()⟩

/-- A pending record with `prID` set (concrete fixture). -/
def wPR : PendingPR :=
  { repo := ⟨"org", "repo"⟩, upstreamRepo := ⟨"uporg", "repo"⟩, branch := "main",
    upstreamPRIDs := [101, 102], upstreamAuthors := ["alice"], prID := some 5,
    githubIssue := none, action := PRAction.Pending }

/-- A host whose merge call always throws a conflict and whose issue
creation returns issue 7 (concrete fixture). -/
def wClientConflict : Client :=
  { pullsMerge := fun _ => Except.error "conflict"
    issuesCreate := fun _ => Except.ok 7
    pullsGet := fun _ => Except.error "unused"
    pullsUpdate := fun _ => Except.ok ()
    reposGetBranch := fun _ => Except.error "unused"
    reposGetContent := fun _ => ContentOutcome.err "unused" }

/-- A host that accepts a merge only when the request's `sha` equals the
PR's actual current head `"realhead"`, and whose issue creation returns
issue 9 (concrete fixture). -/
def wClientHeadGuard : Client :=
  { pullsMerge := fun p =>
      if p.sha == "realhead" then Except.ok () else Except.error "head mismatch"
    issuesCreate := fun _ => Except.ok 9
    pullsGet := fun _ => Except.error "unused"
    pullsUpdate := fun _ => Except.ok ()
    reposGetBranch := fun _ => Except.error "unused"
    reposGetContent := fun _ => ContentOutcome.err "unused" }

/-- A host whose merge call throws and whose issue creation also throws
(concrete fixture). -/
def wClientIssueFail : Client :=
  { pullsMerge := fun _ => Except.error "conflict"
    issuesCreate := fun _ => Except.error "issue call failed"
    pullsGet := fun _ => Except.error "unused"
    pullsUpdate := fun _ => Except.ok ()
    reposGetBranch := fun _ => Except.error "unused"
    reposGetContent := fun _ => ContentOutcome.err "unused" }

/-- C1: for a record with `prID` set, when the host merge call fails and
the failure handling succeeds, `mergePR` creates the failure issue, sets
`githubIssue` to the returned issue number, sets `action` to `Blocked`,
persists the updated record through the store, resolves `false`, and
makes exactly one merge attempt. -/
theorem mergePR_merge_failure_blocks_record (client : Client) (db : Database)
    (pendingPR : PendingPR) (head : String) (k : Nat) (errMsg : String) (issueID : Nat)
    (_hprID : pendingPR.prID = some k)
    (hmerge : client.pullsMerge (mergeParamsOf pendingPR head) = Except.error errMsg)
    (hissue : client.issuesCreate (mergeFailureIssueParams pendingPR errMsg) =
      Except.ok issueID)
    (hdb : db.setPendingPR (blockedRecord pendingPR issueID) = Except.ok ()) :
    mergePR client db pendingPR head =
      (Except.ok (false, blockedRecord pendingPR issueID),
        [Event.pullsMerge (mergeParamsOf pendingPR head),
         Event.issuesCreate (mergeFailureIssueParams pendingPR errMsg),
         Event.setPendingPR (blockedRecord pendingPR issueID)]) ∧
    (blockedRecord pendingPR issueID).githubIssue = some issueID ∧
    (blockedRecord pendingPR issueID).action = PRAction.Blocked ∧
    countMergeCalls (mergePR client db pendingPR head).2 = 1 := by
  have h : mergePR client db pendingPR head =
      (Except.ok (false, blockedRecord pendingPR issueID),
        [Event.pullsMerge (mergeParamsOf pendingPR head),
         Event.issuesCreate (mergeFailureIssueParams pendingPR errMsg),
         Event.setPendingPR (blockedRecord pendingPR issueID)]) := by
    simp [mergePR, hmerge, hissue, hdb]
  refine ⟨h, rfl, rfl, ?_⟩
  rw [h]
  simp [countMergeCalls, Event.isMergeCall, List.filter]

/-- C1 witness: the conflict fixture. -/
theorem mergePR_merge_failure_blocks_record_witness :
    mergePR wClientConflict wDB wPR "abc" =
      (Except.ok (false, blockedRecord wPR 7),
        [Event.pullsMerge (mergeParamsOf wPR "abc"),
         Event.issuesCreate (mergeFailureIssueParams wPR "conflict"),
         Event.setPendingPR (blockedRecord wPR 7)]) ∧
    (blockedRecord wPR 7).githubIssue = some 7 ∧
    (blockedRecord wPR 7).action = PRAction.Blocked ∧
    countMergeCalls (mergePR wClientConflict wDB wPR "abc").2 = 1 :=
  mergePR_merge_failure_blocks_record wClientConflict wDB wPR "abc" 5 "conflict" 7
    rfl rfl rfl rfl

/-- C2: every record `mergePR` hands to the store write has `githubIssue`
set whenever its action is `Blocked`, and when the input record satisfies
that invariant so does the record a successful `mergePR` returns. -/
theorem blocked_record_has_issue (client : Client) (db : Database)
    (pendingPR : PendingPR) (head : String) :
    (∀ r, Event.setPendingPR r ∈ (mergePR client db pendingPR head).2 →
      r.action = PRAction.Blocked → r.githubIssue.isSome = true) ∧
    ((pendingPR.action = PRAction.Blocked → pendingPR.githubIssue.isSome = true) →
      ∀ b r evs, mergePR client db pendingPR head = (Except.ok (b, r), evs) →
        r.action = PRAction.Blocked → r.githubIssue.isSome = true) := by
  constructor
  · intro r hmem _
    rcases hm : client.pullsMerge (mergeParamsOf pendingPR head) with msg | u
    · rcases hi : client.issuesCreate (mergeFailureIssueParams pendingPR msg) with e | issueID
      · simp [mergePR, hm, hi] at hmem
      · rcases hd : db.setPendingPR (blockedRecord pendingPR issueID) with e | u
        · simp [mergePR, hm, hi, hd] at hmem
          simp [hmem, blockedRecord]
        · simp [mergePR, hm, hi, hd] at hmem
          simp [hmem, blockedRecord]
    · simp [mergePR, hm] at hmem
  · intro hinv b r evs heq
    rcases hm : client.pullsMerge (mergeParamsOf pendingPR head) with msg | u
    · rcases hi : client.issuesCreate (mergeFailureIssueParams pendingPR msg) with e | issueID
      · rw [mergePR] at heq
        simp [hm, hi] at heq
      · rcases hd : db.setPendingPR (blockedRecord pendingPR issueID) with e | u
        · rw [mergePR] at heq
          simp [hm, hi, hd] at heq
        · rw [mergePR] at heq
          simp [hm, hi, hd] at heq
          intro _
          rw [← heq.1.2]
          simp [blockedRecord]
    · rw [mergePR] at heq
      simp [hm] at heq
      rcases heq with ⟨⟨_, rfl⟩, _⟩
      exact hinv


/-- C2 witness: the record persisted by the conflict fixture run. -/
theorem blocked_record_has_issue_witness :
    (blockedRecord wPR 7).githubIssue.isSome = true :=
  (blocked_record_has_issue wClientConflict wDB wPR "abc").1 (blockedRecord wPR 7)
    (by decide) rfl

/-- C3: `mergePR` requests the merge with the rebase strategy pinned to
exactly the supplied head; when the host rejects every merge whose `sha`
differs from the PR's actual current head and the supplied head so
differs, `mergePR` never reports success: the merge fails and the record
becomes `Blocked`, not `Merged`. -/
theorem mergePR_rebase_pinned_head (client : Client) (db : Database)
    (pendingPR : PendingPR) (head actualHead : String) (issueID : Nat) :
    (∀ p, Event.pullsMerge p ∈ (mergePR client db pendingPR head).2 →
      p.merge_method = "rebase" ∧ p.sha = head) ∧
    ((∀ p : MergeParams, p.sha ≠ actualHead → ∃ e, client.pullsMerge p = Except.error e) →
      head ≠ actualHead →
      (∀ ip, client.issuesCreate ip = Except.ok issueID) →
      (∀ r, db.setPendingPR r = Except.ok ()) →
      (mergePR client db pendingPR head).1 =
        Except.ok (false, blockedRecord pendingPR issueID) ∧
      (blockedRecord pendingPR issueID).action = PRAction.Blocked ∧
      (blockedRecord pendingPR issueID).action ≠ PRAction.Merged) := by
  constructor
  · intro p hmem
    have hp : p = mergeParamsOf pendingPR head := by
      rcases hm : client.pullsMerge (mergeParamsOf pendingPR head) with msg | u
      · rcases hi : client.issuesCreate (mergeFailureIssueParams pendingPR msg) with e | issueID
        · simp [mergePR, hm, hi] at hmem
          exact hmem
        · rcases hd : db.setPendingPR (blockedRecord pendingPR issueID) with e | u
          · simp [mergePR, hm, hi, hd] at hmem
            exact hmem
          · simp [mergePR, hm, hi, hd] at hmem
            exact hmem
      · simp [mergePR, hm] at hmem
        exact hmem
    rw [hp]
    exact ⟨rfl, rfl⟩
  · intro hhost hne hiss hdb
    obtain ⟨e, hm⟩ := hhost (mergeParamsOf pendingPR head) hne
    refine ⟨?_, rfl, by simp [blockedRecord]⟩
    simp [mergePR, hm, hiss, hdb]

/-- C3 witness: the head-guard fixture with a stale supplied head. -/
theorem mergePR_rebase_pinned_head_witness :
    ((mergeParamsOf wPR "stalehead").merge_method = "rebase" ∧
      (mergeParamsOf wPR "stalehead").sha = "stalehead") ∧
    (mergePR wClientHeadGuard wDB wPR "stalehead").1 =
      Except.ok (false, blockedRecord wPR 9) ∧
    (blockedRecord wPR 9).action = PRAction.Blocked ∧
    (blockedRecord wPR 9).action ≠ PRAction.Merged := by
  have h := mergePR_rebase_pinned_head wClientHeadGuard wDB wPR "stalehead" "realhead" 9
  refine ⟨h.1 (mergeParamsOf wPR "stalehead") (by decide), ?_⟩
  exact h.2
    (fun p hp =>
      ⟨"head mismatch", by
        simp only [wClientHeadGuard]
        rw [if_neg (by simpa using hp)]⟩)
    (by decide) (fun _ => rfl) (fun _ => rfl)

/-- C10: when the merge fails and the failure-issue creation itself also
fails, `mergePR` propagates that error and performs no store write, so
the record is left in its prior state. -/
theorem mergePR_report_failure_propagates (client : Client) (db : Database)
    (pendingPR : PendingPR) (head : String) (errMsg e : String)
    (hmerge : client.pullsMerge (mergeParamsOf pendingPR head) = Except.error errMsg)
    (hissue : client.issuesCreate (mergeFailureIssueParams pendingPR errMsg) =
      Except.error e) :
    mergePR client db pendingPR head =
      (Except.error e,
        [Event.pullsMerge (mergeParamsOf pendingPR head),
         Event.issuesCreate (mergeFailureIssueParams pendingPR errMsg)]) ∧
    ∀ r, Event.setPendingPR r ∉ (mergePR client db pendingPR head).2 := by
  have h : mergePR client db pendingPR head =
      (Except.error e,
        [Event.pullsMerge (mergeParamsOf pendingPR head),
         Event.issuesCreate (mergeFailureIssueParams pendingPR errMsg)]) := by
    simp [mergePR, hmerge, hissue]
  refine ⟨h, ?_⟩
  intro r hmem
  rw [h] at hmem
  simp at hmem

/-- C10 witness: the fixture whose issue creation throws. -/
theorem mergePR_report_failure_propagates_witness :
    mergePR wClientIssueFail wDB wPR "abc" =
      (Except.error "issue call failed",
        [Event.pullsMerge (mergeParamsOf wPR "abc"),
         Event.issuesCreate (mergeFailureIssueParams wPR "conflict")]) ∧
    Event.setPendingPR wPR ∉ (mergePR wClientIssueFail wDB wPR "abc").2 := by
  have h := mergePR_report_failure_propagates wClientIssueFail wDB wPR "abc"
    "conflict" "issue call failed" rfl rfl
  exact ⟨h.1, h.2 wPR⟩

/-- A host whose PR read returns an empty-string body (concrete
fixture). -/
def wClientEmptyBody : Client :=
  { pullsMerge := fun _ => Except.error "unused"
    issuesCreate := fun _ => Except.ok 0
    pullsGet := fun _ => Except.ok { body := some "", assignees := none }
    pullsUpdate := fun _ => Except.ok ()
    reposGetBranch := fun _ => Except.error "unused"
    reposGetContent := fun _ => ContentOutcome.err "unused" }

/-- A host whose PR read returns a body and existing assignee `"alice"`
(concrete fixture). -/
def wClientAlice : Client :=
  { pullsMerge := fun _ => Except.error "unused"
    issuesCreate := fun _ => Except.ok 0
    pullsGet := fun _ =>
      Except.ok { body := some "desc", assignees := some [⟨"alice"⟩] }
    pullsUpdate := fun _ => Except.ok ()
    reposGetBranch := fun _ => Except.error "unused"
    reposGetContent := fun _ => ContentOutcome.err "unused" }

/-- A host whose PR read returns a null body (concrete fixture for the
no-op case). -/
def wClientNullBody : Client :=
  { pullsMerge := fun _ => Except.error "unused"
    issuesCreate := fun _ => Except.ok 0
    pullsGet := fun _ => Except.ok { body := none, assignees := none }
    pullsUpdate := fun _ => Except.ok ()
    reposGetBranch := fun _ => Except.error "unused"
    reposGetContent := fun _ => ContentOutcome.err "unused" }

/-- Shape of an `updatePR` run whose PR read found a body: exactly one
read event followed by exactly one update event with the appended body
and the computed assignees. -/
theorem updatePR_trace_of_body (client : Client) (org repo : String) (id : Nat)
    (assignees : List String) (message : String) (data : PullData) (b : String)
    (hget : client.pullsGet (pullGetParamsOf org repo id) = Except.ok data)
    (hb : data.body = some b) :
    (updatePR client org repo id assignees message).2 =
      [Event.pullsGet (pullGetParamsOf org repo id),
       Event.pullsUpdate (updateParamsOf org repo id (b ++ "\n\n" ++ message)
         (newAssignees data.assignees assignees))] := by
  rcases hu : client.pullsUpdate (updateParamsOf org repo id (b ++ "\n\n" ++ message)
      (newAssignees data.assignees assignees)) with e | u
  · simp [updatePR, hget, hb, hu]
  · simp [updatePR, hget, hb, hu]

/-- C8 counterexample: on a PR whose existing body is the empty string
(present but empty), `updatePR` does issue an update call — the claimed
zero-update no-op behaviour fails there. -/
theorem updatePR_empty_body_still_updates :
    countUpdateCalls (updatePR wClientEmptyBody "org" "repo" 1 ["bob"] "msg").2 = 1 ∧
    (updatePR wClientEmptyBody "org" "repo" 1 ["bob"] "msg").2 =
      [Event.pullsGet (pullGetParamsOf "org" "repo" 1),
       Event.pullsUpdate (updateParamsOf "org" "repo" 1 ("" ++ "\n\n" ++ "msg") ["bob"])] := by
  constructor
  · decide
  · decide

/-- C8 (amended): `updatePR` no-ops — returns without any update call —
exactly when the fetched body is absent (null); when a body is present
(even the empty string) it issues exactly one update whose body is the
existing body with the message appended. -/
theorem updatePR_null_body_noop (client : Client) (org repo : String) (id : Nat)
    (assignees : List String) (message : String) (data : PullData)
    (hget : client.pullsGet (pullGetParamsOf org repo id) = Except.ok data) :
    (data.body = none →
      updatePR client org repo id assignees message =
        (none, [Event.pullsGet (pullGetParamsOf org repo id)]) ∧
      countUpdateCalls (updatePR client org repo id assignees message).2 = 0) ∧
    (∀ b, data.body = some b →
      countUpdateCalls (updatePR client org repo id assignees message).2 = 1 ∧
      ∀ up, Event.pullsUpdate up ∈ (updatePR client org repo id assignees message).2 →
        up.body = b ++ "\n\n" ++ message) := by
  constructor
  · intro hb
    have h : updatePR client org repo id assignees message =
        (none, [Event.pullsGet (pullGetParamsOf org repo id)]) := by
      simp [updatePR, hget, hb]
    refine ⟨h, ?_⟩
    rw [h]
    simp [countUpdateCalls, Event.isUpdateCall, List.filter]
  · intro b hb
    have h := updatePR_trace_of_body client org repo id assignees message data b hget hb
    constructor
    · rw [h]
      simp [countUpdateCalls, Event.isUpdateCall, List.filter]
    · intro up hmem
      rw [h] at hmem
      simp at hmem
      rw [hmem, updateParamsOf]

/-- C8 witness: the null-body fixture no-ops with zero update calls. -/
theorem updatePR_null_body_noop_witness :
    updatePR wClientNullBody "org" "repo" 1 ["bob"] "msg" =
      (none, [Event.pullsGet (pullGetParamsOf "org" "repo" 1)]) ∧
    countUpdateCalls (updatePR wClientNullBody "org" "repo" 1 ["bob"] "msg").2 = 0 :=
  (updatePR_null_body_noop wClientNullBody "org" "repo" 1 ["bob"] "msg"
    { body := none, assignees := none } rfl).1 rfl

/-- C9: when the fetched PR already has a non-empty assignee list, the
update `updatePR` issues carries those existing assignees (as logins),
not the caller-supplied defaults; the defaults are sent only when the PR
has no existing assignees. -/
theorem updatePR_keeps_existing_assignees (client : Client) (org repo : String)
    (id : Nat) (assignees : List String) (message : String) (data : PullData)
    (b : String)
    (hget : client.pullsGet (pullGetParamsOf org repo id) = Except.ok data)
    (hb : data.body = some b) :
    (∀ l, data.assignees = some l → l ≠ [] →
      ∀ up, Event.pullsUpdate up ∈ (updatePR client org repo id assignees message).2 →
        up.assignees = l.map Assignee.login) ∧
    (data.assignees = none ∨ data.assignees = some [] →
      ∀ up, Event.pullsUpdate up ∈ (updatePR client org repo id assignees message).2 →
        up.assignees = assignees) := by
  have h := updatePR_trace_of_body client org repo id assignees message data b hget hb
  constructor
  · intro l hl hlne up hmem
    rw [h] at hmem
    simp at hmem
    rw [hmem, updateParamsOf, hl, newAssignees]
    have hlen : l.length > 0 := by
      cases l with
      | nil => exact absurd rfl hlne
      | cons x xs => simp
    simp [hlen]
  · intro hnone up hmem
    rw [h] at hmem
    simp at hmem
    rw [hmem, updateParamsOf]
    rcases hnone with hn | hn
    · rw [hn, newAssignees]
    · rw [hn, newAssignees]
      simp

/-- C9 witness: a PR already assigned to `"alice"` with caller default
`"bob"`: the update event carries `["alice"]`. -/
theorem updatePR_keeps_existing_assignees_witness :
    (updateParamsOf "org" "repo" 1 ("desc" ++ "\n\n" ++ "msg")
      (newAssignees (some [⟨"alice"⟩]) ["bob"])).assignees =
      List.map Assignee.login [⟨"alice"⟩] :=
  (updatePR_keeps_existing_assignees wClientAlice "org" "repo" 1 ["bob"] "msg"
      { body := some "desc", assignees := some [⟨"alice"⟩] } "desc" rfl rfl).1
    [⟨"alice"⟩] rfl (by decide)
    (updateParamsOf "org" "repo" 1 ("desc" ++ "\n\n" ++ "msg")
      (newAssignees (some [⟨"alice"⟩]) ["bob"]))
    (by decide)

/-- A host whose branch protection is enabled with duplicate required
contexts (concrete fixture). -/
def wClientChecks : Client :=
  { pullsMerge := fun _ => Except.error "unused"
    issuesCreate := fun _ => Except.ok 0
    pullsGet := fun _ => Except.error "unused"
    pullsUpdate := fun _ => Except.ok ()
    reposGetBranch := fun _ => Except.ok ⟨⟨true, some ⟨["ci", "lint", "ci"]⟩⟩⟩
    reposGetContent := fun _ => ContentOutcome.err "unused" }

/-- C7: `getRequiredChecks` answers the empty set whenever branch
protection is disabled or no required-status-checks policy exists, and
otherwise answers exactly the configured context names as a
duplicate-free native set. -/
theorem getRequiredChecks_empty_or_dedup (client : Client)
    (organization repoName branchName : String) (bd : BranchData)
    (hbr : client.reposGetBranch (branchParamsOf organization repoName branchName) =
      Except.ok bd) :
    (bd.protection.enabled = false ∨ bd.protection.required_status_checks = none →
      getRequiredChecks client organization repoName branchName = Except.ok []) ∧
    (∀ rsc, bd.protection.required_status_checks = some rsc →
      bd.protection.enabled = true →
      getRequiredChecks client organization repoName branchName =
        Except.ok (jsNewSet rsc.contexts) ∧
      (jsNewSet rsc.contexts).Nodup ∧
      ∀ x, x ∈ jsNewSet rsc.contexts ↔ x ∈ rsc.contexts) := by
  constructor
  · rintro (hdis | hnone)
    · rcases hr : bd.protection.required_status_checks with _ | rsc
      · simp [getRequiredChecks, hbr, hr]
      · simp [getRequiredChecks, hbr, hr, hdis]
    · simp [getRequiredChecks, hbr, hnone]
  · intro rsc hr hen
    exact ⟨by simp [getRequiredChecks, hbr, hr, hen], jsNewSet_nodup _,
      fun x => jsNewSet_mem _ x⟩

/-- C7 witness: a protection payload repeating `"ci"` yields the
duplicate-free set. -/
theorem getRequiredChecks_empty_or_dedup_witness :
    getRequiredChecks wClientChecks "org" "repo" "main" =
      Except.ok (jsNewSet ["ci", "lint", "ci"]) ∧
    (jsNewSet ["ci", "lint", "ci"]).Nodup ∧
    ("ci" ∈ jsNewSet ["ci", "lint", "ci"] ↔ "ci" ∈ ["ci", "lint", "ci"]) := by
  have h := (getRequiredChecks_empty_or_dedup wClientChecks "org" "repo" "main"
    ⟨⟨true, some ⟨["ci", "lint", "ci"]⟩⟩⟩ rfl).2 ⟨["ci", "lint", "ci"]⟩ rfl rfl
  exact ⟨h.1, h.2.1, h.2.2 "ci"⟩

/-- Libraries whose YAML load yields an approvers mapping (concrete
fixture; the decode step is the identity). -/
def wLibsApprovers : JsLibs :=
  ⟨fun s => s, fun _ =>
    Except.ok (JsValue.obj
      [("approvers", JsValue.arr [JsValue.str "alice", JsValue.str "bob"])])⟩

/-- Libraries whose YAML load yields a mapping without an approvers list
(concrete fixture). -/
def wLibsNoApprovers : JsLibs :=
  ⟨fun s => s, fun _ => Except.ok (JsValue.obj [("reviewers", JsValue.arr [])])⟩

/-- A host whose content read succeeds with a base64 `content` field
(concrete fixture). -/
def wClientOwnersFile : Client :=
  { pullsMerge := fun _ => Except.error "unused"
    issuesCreate := fun _ => Except.ok 0
    pullsGet := fun _ => Except.error "unused"
    pullsUpdate := fun _ => Except.ok ()
    reposGetBranch := fun _ => Except.error "unused"
    reposGetContent := fun _ =>
      ContentOutcome.ok (JsValue.obj [("content", JsValue.str "YWxpY2U=")]) }

/-- A host whose content read throws a network error (concrete
fixture). -/
def wClientOwnersNetErr : Client :=
  { pullsMerge := fun _ => Except.error "unused"
    issuesCreate := fun _ => Except.ok 0
    pullsGet := fun _ => Except.error "unused"
    pullsUpdate := fun _ => Except.ok ()
    reposGetBranch := fun _ => Except.error "unused"
    reposGetContent := fun _ => ContentOutcome.err "ETIMEDOUT" }

/-- A host for which the `OWNERS` path does not exist: the content read
throws the host's not-found error (concrete fixture). -/
def wClientOwnersAbsent : Client :=
  { pullsMerge := fun _ => Except.error "unused"
    issuesCreate := fun _ => Except.ok 0
    pullsGet := fun _ => Except.error "unused"
    pullsUpdate := fun _ => Except.ok ()
    reposGetBranch := fun _ => Except.error "unused"
    reposGetContent := fun _ => ContentOutcome.notFound }

/-- C5: a successful retrieval whose decoded payload is a truthy object
without an approvers array yields `[]`; a well-formed payload yields
exactly its approvers list; a retrieval error yields an explicit error,
never `[]`. -/
theorem getOwners_gate (client : Client) (libs : JsLibs)
    (organization repoName branchName : String) :
    (∀ v content ownersObj,
      client.reposGetContent (contentParamsOf organization repoName branchName) =
        ContentOutcome.ok v →
      v.getField "content" = some (JsValue.str content) →
      v.isArray = false →
      libs.yamlLoad (libs.base64DecodeUtf8 content) = Except.ok ownersObj →
      ownersObj.typeofIsObject = true →
      ownersObj.truthy = true →
      (∀ l, ownersObj.getField "approvers" ≠ some (JsValue.arr l)) →
      getOwners client libs organization repoName branchName = Except.ok []) ∧
    (∀ v content ownersObj l,
      client.reposGetContent (contentParamsOf organization repoName branchName) =
        ContentOutcome.ok v →
      v.getField "content" = some (JsValue.str content) →
      v.isArray = false →
      libs.yamlLoad (libs.base64DecodeUtf8 content) = Except.ok ownersObj →
      ownersObj.typeofIsObject = true →
      ownersObj.truthy = true →
      ownersObj.getField "approvers" = some (JsValue.arr l) →
      getOwners client libs organization repoName branchName = Except.ok l) ∧
    (∀ msg,
      client.reposGetContent (contentParamsOf organization repoName branchName) =
        ContentOutcome.err msg →
      getOwners client libs organization repoName branchName =
        Except.error ("failed to retrieve OWNERS file: " ++ msg) ∧
      ∀ l, getOwners client libs organization repoName branchName ≠ Except.ok l) := by
  refine ⟨?_, ?_, ?_⟩
  · intro v content ownersObj hv hc ha hy hto htr hno
    rcases hap : ownersObj.getField "approvers" with _ | av
    · simp [getOwners, hv, hc, ha, hy, hto, htr, hap]
    · cases av <;> first
        | exact absurd hap (hno _)
        | simp [getOwners, hv, hc, ha, hy, hto, htr, hap]
  · intro v content ownersObj l hv hc ha hy hto htr hap
    simp [getOwners, hv, hc, ha, hy, hto, htr, hap]
  · intro msg hv
    have h : getOwners client libs organization repoName branchName =
        Except.error ("failed to retrieve OWNERS file: " ++ msg) := by
      simp [getOwners, hv]
    exact ⟨h, fun l he => by rw [h] at he; cases he⟩

/-- C5 witness: the three behaviours at concrete clients and library
stubs. -/
theorem getOwners_gate_witness :
    getOwners wClientOwnersFile wLibsNoApprovers "org" "repo" "main" = Except.ok [] ∧
    getOwners wClientOwnersFile wLibsApprovers "org" "repo" "main" =
      Except.ok [JsValue.str "alice", JsValue.str "bob"] ∧
    getOwners wClientOwnersNetErr wLibsApprovers "org" "repo" "main" =
      Except.error ("failed to retrieve OWNERS file: " ++ "ETIMEDOUT") := by
  refine ⟨?_, ?_, ?_⟩
  · exact (getOwners_gate wClientOwnersFile wLibsNoApprovers "org" "repo" "main").1
      (JsValue.obj [("content", JsValue.str "YWxpY2U=")]) "YWxpY2U="
      (JsValue.obj [("reviewers", JsValue.arr [])]) rfl rfl rfl rfl rfl rfl
      (fun l h => by
        rw [show (JsValue.obj [("reviewers", JsValue.arr [])]).getField "approvers" =
          none from rfl] at h
        cases h)
  · exact (getOwners_gate wClientOwnersFile wLibsApprovers "org" "repo" "main").2.1
      (JsValue.obj [("content", JsValue.str "YWxpY2U=")]) "YWxpY2U="
      (JsValue.obj
        [("approvers", JsValue.arr [JsValue.str "alice", JsValue.str "bob"])])
      [JsValue.str "alice", JsValue.str "bob"] rfl rfl rfl rfl rfl rfl rfl
  · exact ((getOwners_gate wClientOwnersNetErr wLibsApprovers "org" "repo" "main").2.2
      "ETIMEDOUT" rfl).1

/-- C6 counterexample: with the `OWNERS` path absent the host throws its
not-found error and `getOwners` rejects instead of returning `[]`. -/
theorem getOwners_absent_file_rejects :
    getOwners wClientOwnersAbsent wLibsApprovers "org" "repo" "main" =
      Except.error ("failed to retrieve OWNERS file: " ++ "HttpError: Not Found") ∧
    getOwners wClientOwnersAbsent wLibsApprovers "org" "repo" "main" ≠
      Except.ok [] := by
  have h : getOwners wClientOwnersAbsent wLibsApprovers "org" "repo" "main" =
      Except.error ("failed to retrieve OWNERS file: " ++ "HttpError: Not Found") := rfl
  exact ⟨h, fun he => by rw [h] at he; cases he⟩

/-- C6 (amended): when the `OWNERS` file does not exist on the branch,
the content request throws the host's not-found error, and `getOwners`
fails with a retrieval error — the empty list is answered only for
successful retrievals that yield no approvers list. -/
theorem getOwners_absent_file_is_error (client : Client) (libs : JsLibs)
    (organization repoName branchName : String)
    (h : client.reposGetContent (contentParamsOf organization repoName branchName) =
      ContentOutcome.notFound) :
    getOwners client libs organization repoName branchName =
      Except.error ("failed to retrieve OWNERS file: " ++ "HttpError: Not Found") ∧
    ∀ l, getOwners client libs organization repoName branchName ≠ Except.ok l := by
  have he : getOwners client libs organization repoName branchName =
      Except.error ("failed to retrieve OWNERS file: " ++ "HttpError: Not Found") := by
    simp [getOwners, h, ContentOutcome.errText]
  exact ⟨he, fun l hc => by rw [he] at hc; cases hc⟩

/-- C6 witness: the absent-file fixture. -/
theorem getOwners_absent_file_is_error_witness :
    getOwners wClientOwnersAbsent wLibsNoApprovers "org" "repo" "main" =
      Except.error ("failed to retrieve OWNERS file: " ++ "HttpError: Not Found") ∧
    getOwners wClientOwnersAbsent wLibsNoApprovers "org" "repo" "main" ≠
      Except.ok [] :=
  let h := getOwners_absent_file_is_error wClientOwnersAbsent wLibsNoApprovers
    "org" "repo" "main" rfl
  ⟨h.1, h.2 []⟩

/-- The sentence of the failure-issue body stating that syncing is
paused for the branch until the issue is closed (the paused chunk less
its trailing newline). -/
def pausedSentence (org repo branch : String) : String :=
  "Syncing is paused for the branch " ++ branch ++ " on " ++ org ++ "/" ++ repo ++
    " until the issue is manually resolved and this issue is closed."

theorem pausedChunk_eq (org repo branch : String) :
    pausedChunk org repo branch = pausedSentence org repo branch ++ "\n" := by
  have hsplit :
      (" until the issue is manually resolved and this issue is closed.\n" : String) =
        " until the issue is manually resolved and this issue is closed." ++ "\n" := by
    decide
  simp only [pausedChunk, pausedSentence]
  rw [hsplit]
  simp only [string_append_assoc]

theorem strHasSub_pausedChunk (X org repo branch : String) :
    strHasSub (X ++ pausedChunk org repo branch) (pausedSentence org repo branch) :=
  ⟨X, "\n", by rw [pausedChunk_eq, ← string_append_assoc]⟩

theorem errChunk_eq (e : String) :
    errChunk e = "\nSyncing error:\n" ++ ("```\n" ++ e ++ "\n```") ++ "\n" := by
  have h1 : ("\nSyncing error:\n```\n" : String) = "\nSyncing error:\n" ++ "```\n" := by
    decide
  have h2 : ("\n```\n" : String) = "\n```" ++ "\n" := by decide
  simp only [errChunk]
  rw [h1, h2]
  simp only [string_append_assoc]

theorem strHasSub_errChunk (X e : String) :
    strHasSub (X ++ errChunk e) ("```\n" ++ e ++ "\n```") :=
  ⟨X ++ "\nSyncing error:\n", "\n", by
    rw [errChunk_eq]
    simp only [string_append_assoc]⟩

/-- `failureBody` with no `prID` and a truthy `err`, as a plain append of
its chunks. -/
theorem failureBody_noPR_err (org repo upstreamOrg branch : String)
    (ids : List Nat) (reason : String) (e : String) (he : e ≠ "") :
    (failureBody org repo upstreamOrg branch ids reason none (some e) none =
      failureIntro repo upstreamOrg ids reason ++ pausedChunk org repo branch ++
        errChunk e ++ yodaChunk) ∧
    (∀ cmds, failureBody org repo upstreamOrg branch ids reason none (some e)
        (some cmds) =
      failureIntro repo upstreamOrg ids reason ++ pausedChunk org repo branch ++
        errChunk e ++ patchChunk cmds ++ yodaChunk) := by
  have ht : truthyStr (some e) = true := by simp [truthyStr, he]
  constructor
  · simp [failureBody, truthyNat, ht]
  · intro cmds
    simp [failureBody, truthyNat, ht]

/-- C4 counterexample: `err` supplied as the empty string is falsy, so
the failure body carries no fenced block at all — there is not even a
single backtick fence in it. -/
theorem createFailureIssue_empty_err_no_fence :
    ¬ strHasSub
      (failureBody "org" "repo" "uporg" "main" [101, 102] "stale head" none
        (some "") none)
      "```" := by
  apply not_strHasSub
  set_option maxRecDepth 10000 in decide

/-- `failureBody` with no `prID`, for any `err` and `patchCmd`, as a
plain append of its chunks (an untaken `if`/`match` chunk appears as the
empty string). -/
theorem failureBody_noPR_eq (org repo upstreamOrg branch : String)
    (ids : List Nat) (reason : String) (err : Option String)
    (patchCmd : Option (List String)) :
    failureBody org repo upstreamOrg branch ids reason none err patchCmd =
      failureIntro repo upstreamOrg ids reason ++ pausedChunk org repo branch ++
        (if truthyStr err then errChunk (err.getD "") else "") ++
        (match patchCmd with
          | some cmds => patchChunk cmds
          | none => "") ++ yodaChunk := by
  rcases ht : truthyStr err with _ | _
  · rcases patchCmd with _ | cmds <;>
      simp [failureBody, truthyNat, ht, string_append_empty]
  · rcases patchCmd with _ | cmds <;>
      simp [failureBody, truthyNat, ht, string_append_empty]

/-- C4 (amended): for upstream PR IDs `[101, 102]`, reason
`"stale head"` and no `prID` — whatever the `err` argument — the issue
title contains `#101` and `#102`, the body contains the sentence that
syncing is paused for the branch until the issue is closed, and
`createFailureIssue` resolves to exactly what the host's issue-creation
call returns; whenever `err` is supplied and truthy (non-empty), its
text appears verbatim inside a fenced code block. -/
theorem createFailureIssue_report_contents (client : Client)
    (org repo upstreamOrg branch : String) (assignees : Option (List String))
    (patchCmd : Option (List String)) (err : Option String) :
    strHasSub (failureTitle [101, 102]) "#101" ∧
    strHasSub (failureTitle [101, 102]) "#102" ∧
    strHasSub
      (failureBody org repo upstreamOrg branch [101, 102] "stale head" none
        err patchCmd)
      (pausedSentence org repo branch) ∧
    (∀ e, err = some e → e ≠ "" →
      strHasSub
        (failureBody org repo upstreamOrg branch [101, 102] "stale head" none
          err patchCmd)
        ("```\n" ++ e ++ "\n```")) ∧
    (createFailureIssue client org repo upstreamOrg branch [101, 102] "stale head"
        none assignees patchCmd err).1 =
      client.issuesCreate (issueParamsOf org repo upstreamOrg branch [101, 102]
        "stale head" none assignees patchCmd err) := by
  refine ⟨⟨"😿 Failed to sync the upstream PRs: ", ", #102", by decide⟩,
    ⟨"😿 Failed to sync the upstream PRs: #101, ", "", by decide⟩, ?_, ?_, rfl⟩
  · rw [failureBody_noPR_eq]
    apply strHasSub_append_right
    apply strHasSub_append_right
    apply strHasSub_append_right
    exact strHasSub_pausedChunk _ org repo branch
  · intro e he hne
    subst he
    have hb := failureBody_noPR_err org repo upstreamOrg branch [101, 102]
      "stale head" e hne
    rcases patchCmd with _ | cmds
    · rw [hb.1]
      apply strHasSub_append_right
      exact strHasSub_errChunk _ e
    · rw [hb.2 cmds]
      apply strHasSub_append_right
      apply strHasSub_append_right
      exact strHasSub_errChunk _ e

/-- C4 witness: concrete repository coordinates with a concrete truthy
error text. -/
theorem createFailureIssue_report_contents_witness :
    strHasSub (failureTitle [101, 102]) "#101" ∧
    strHasSub (failureTitle [101, 102]) "#102" ∧
    strHasSub
      (failureBody "org" "repo" "uporg" "main" [101, 102] "stale head" none
        (some "boom") none)
      (pausedSentence "org" "repo" "main") ∧
    strHasSub
      (failureBody "org" "repo" "uporg" "main" [101, 102] "stale head" none
        (some "boom") none)
      ("```\n" ++ "boom" ++ "\n```") ∧
    (createFailureIssue wClientConflict "org" "repo" "uporg" "main" [101, 102]
        "stale head" none none none (some "boom")).1 =
      wClientConflict.issuesCreate (issueParamsOf "org" "repo" "uporg" "main"
        [101, 102] "stale head" none none none (some "boom")) :=
  let h := createFailureIssue_report_contents wClientConflict "org" "repo" "uporg"
    "main" none none (some "boom")
  ⟨h.1, h.2.1, h.2.2.1, h.2.2.2.1 "boom" rfl (by decide), h.2.2.2.2⟩

end MagicMirror
